import Mathlib

/-!
Verification of the validate-env-vars-webpack-plugin core (src/index.js)
as a shallow embedding: the recognition decision, the dedup record, the
known-set source resolution and its validation, and the before-compile gate.
-/

namespace ValidateEnvVars

/-- A webpack Module, as the plugin uses it: an object (distinguished by
identity, here `id`) carrying a `userRequest` path string. -/
structure Module where
  id : Nat
  userRequest : String
deriving DecidableEq, Repr

/-- A scan event reported by the member-expression walker: the env-var
name (`expression.property.name`) and the module it occurred in. -/
structure ScanEvent where
  name : String
  module : Module
deriving DecidableEq, Repr

/-- An `UnrecognisedEnvVarError` pushed to `compilation.errors`: its
message and the module back-reference. -/
structure Diagnostic where
  message : String
  module : Module
deriving DecidableEq, Repr

/-- JS `Map.set`: update the value at an existing key in place (keeping
insertion order), otherwise append the new entry at the end. -/
def mapSet : List (String × Module) → String → Module → List (String × Module)
  | [], k, v => [(k, v)]
  | (k', v') :: rest, k, v =>
    if k' = k then (k, v) :: rest else (k', v') :: mapSet rest k v

/-- JS `Map.get` (as used through `entries`/`has`): first entry at the key. -/
def mapLookup : List (String × Module) → String → Option Module
  | [], _ => none
  | (k', v) :: rest, k => if k' = k then some v else mapLookup rest k

/-- JS `Map.has`. -/
def mapHas (record : List (String × Module)) (k : String) : Bool :=
  (mapLookup record k).isSome

/-- `pre` is a leading substring of `s` (the anchored part of the
regex `/^process\.env\./` match, on character lists). -/
def strHasPre (pre s : String) : Bool :=
  pre.data.isPrefixOf s.data

/-- `name.replace(/^process\.env\./, "")` from src/index.js: drop one
leading `process.env.` qualifier if present (12 characters). -/
def stripProcessEnv (s : String) : String :=
  if strHasPre "process.env." s then String.mk (s.data.drop 12) else s

/-- The string-comparison mode the constructor passes for `ignoreEnvVars`
(src/index.js line 284): `(check, input) => check === input.replace(/^process\.env\./, "")`.
The qualifier is stripped from the candidate `input`, not from the
configured literal `check`. -/
def ignoreEnvVarsStringCheck (check input : String) : Bool :=
  check == stripProcessEnv input

/-- The string-comparison mode the constructor passes for `includePaths`
and `excludePaths` (src/index.js lines 290, 296): `input.startsWith(check)`. -/
def pathStringCheck (check input : String) : Bool :=
  strHasPre check input

/-- One entry of a heterogeneous `String|RegExp` configuration array.
A RegExp is embedded as its test function. -/
inductive StrOrRegex
  | str (s : String)
  | regex (test : String → Bool)

/-- `_processStringOrRegexArrayInput` (src/index.js lines 204-222), on the
success path: compile each entry into a boolean check, a RegExp by its
`test` and a string by the caller-supplied comparison. -/
def processStringOrRegexArrayInput (stringCheck : String → String → Bool) :
    List StrOrRegex → List (String → Bool)
  | [] => []
  | .regex test :: rest => test :: processStringOrRegexArrayInput stringCheck rest
  | .str s :: rest => stringCheck s :: processStringOrRegexArrayInput stringCheck rest

/-- The compiled predicate lists held on the plugin instance
(`this.ignoreEnvVars`, `this.includePaths`, `this.excludePaths`). -/
structure PluginChecks where
  ignoreEnvVars : List (String → Bool)
  includePaths : List (String → Bool)
  excludePaths : List (String → Bool)

/-- A plugin instance with no configured predicates (all three options
absent, the default). -/
def emptyChecks : PluginChecks := ⟨[], [], []⟩

/-- `_isRecognisedEnvVar` (src/index.js lines 232-261), the exact
early-return chain: known set, already-seen record, include paths
(no non-emptiness guard: `!this.includePaths.some(...)`), exclude paths,
ignore names. -/
def isRecognisedEnvVar (knownEnvVars : List String) (checks : PluginChecks)
    (record : List (String × Module)) (envVar modulePath : String) : Bool :=
  if knownEnvVars.contains envVar then true
  else if mapHas record envVar then true
  else if !(checks.includePaths.any fun check => check modulePath) then true
  else if checks.excludePaths.any fun check => check modulePath then true
  else if checks.ignoreEnvVars.any fun check => check envVar then true
  else false

/-- The walker callback body (src/index.js lines 326-328): if the access is
not recognised, insert `(name -> module)` into `foundUnrecognisedEnvVars`. -/
def processEvent (knownEnvVars : List String) (checks : PluginChecks)
    (record : List (String × Module)) (e : ScanEvent) : List (String × Module) :=
  if isRecognisedEnvVar knownEnvVars checks record e.name e.module.userRequest then record
  else mapSet record e.name e.module

/-- Process a whole build's scan events in order. -/
def scanAll (knownEnvVars : List String) (checks : PluginChecks)
    (record : List (String × Module)) (events : List ScanEvent) : List (String × Module) :=
  events.foldl (processEvent knownEnvVars checks) record

/-- The `afterCompile` hook (src/index.js lines 371-376): one
`UnrecognisedEnvVarError` per record entry, in insertion order. -/
def afterCompile (record : List (String × Module)) : List Diagnostic :=
  record.map fun e => ⟨"Unrecognised environment variable: " ++ e.1, e.2⟩

/-- The recognition rules of src/index.js in their source order, indexed
0-4; index 5 and beyond hold no rule. -/
def ruleHolds (knownEnvVars : List String) (checks : PluginChecks)
    (record : List (String × Module)) (envVar modulePath : String) : Nat → Bool
  | 0 => knownEnvVars.contains envVar
  | 1 => mapHas record envVar
  | 2 => !(checks.includePaths.any fun check => check modulePath)
  | 3 => checks.excludePaths.any fun check => check modulePath
  | 4 => checks.ignoreEnvVars.any fun check => check envVar
  | _ => false

/-- First-match-wins evaluation over the ordered rule list: the index of
the first rule that matches, if any. -/
def firstMatchingRule (knownEnvVars : List String) (checks : PluginChecks)
    (record : List (String × Module)) (envVar modulePath : String) : Option Nat :=
  [0, 1, 2, 3, 4].find? (ruleHolds knownEnvVars checks record envVar modulePath)

/-- `sub` occurs contiguously somewhere inside `msg` (the message
mentions that text). -/
def strMentions (msg sub : String) : Bool :=
  msg.data.tails.any fun t => sub.data.isPrefixOf t

/-- A JS value, as far as the source-shape validation inspects one: a
string or anything else. -/
inductive JSValue
  | str (s : String)
  | nonString
deriving DecidableEq, Repr

/-- `Object.keys(object).some((k) => properties.includes(k))`
(src/index.js lines 55-57). -/
def hasPartialProperties (object : List (String × JSValue)) (properties : List String) : Bool :=
  (object.map Prod.fst).any fun k => properties.contains k

/-- `properties.every((k) => objKeys.includes(k))` (src/index.js lines 59-62). -/
def hasAllProperties (object : List (String × JSValue)) (properties : List String) : Bool :=
  properties.all fun k => (object.map Prod.fst).contains k

/-- `arr.map((value) => `'value'`).join(", ")` (src/index.js lines 64-66). -/
def toQuotedStringList (arr : List String) : String :=
  String.intercalate ", " (arr.map fun value => "'" ++ value ++ "'")

/-- JS property read `input[k]` on a plain object. -/
def jsGet (object : List (String × JSValue)) (k : String) : Option JSValue :=
  (object.find? fun p => p.1 == k).map Prod.snd

/-- `typeof input[k] === "string" && input[k].length` holds: the property
is a non-empty string. Its negation selects `stringFieldWithoutLength`. -/
def isNonEmptyStringProp (object : List (String × JSValue)) (k : String) : Bool :=
  match jsGet object k with
  | some (.str s) => !s.isEmpty
  | _ => false

/-- `createExternalSourceCheck` (src/index.js lines 68-98) applied to an
object input (the `Array.isArray || typeof !== "object"` early-out is the
dispatcher's other constructors). `.ok true` means the shape matched and
every required field is a non-empty string; a thrown `BadArgsError` is an
`.error` carrying its exact message. -/
def createExternalSourceCheck (sourceName : String) (required : List String)
    (input : List (String × JSValue)) : Except String Bool :=
  if hasAllProperties input required then
    match required.find? (fun k => !isNonEmptyStringProp input k) with
    | some k =>
      .error ("bad " ++ sourceName ++
        " source configuration (missing value for property '" ++ k ++ "')")
    | none => .ok true
  else if hasPartialProperties input required then
    .error ("bad " ++ sourceName ++ " source configuration (requires properties: " ++
      toQuotedStringList required ++ ")")
  else .ok false

/-- The required-field list of the AWS SecretsManager source, in the order
the source declares it (src/index.js lines 100-103). -/
def awsRequiredProps : List String := ["region", "secretId", "secretAccessKey", "accessKeyId"]

/-- `isAWSSecretsManagerSource` (src/index.js lines 100-103). -/
def isAWSSecretsManagerSource : List (String × JSValue) → Except String Bool :=
  createExternalSourceCheck "AWS SecretsManager" awsRequiredProps

/-- `getAWSSecretsManagerEnvVarNames` (src/index.js lines 109-145), with
the network call and `JSON.parse` passed in as their outcomes: a transport
or authorization failure is rejected unwrapped; a payload whose parse
fails is rejected with the contextual message prefix; otherwise the
result is the payload object's top-level keys. -/
def getAWSSecretsManagerEnvVarNames (fetchResult : Except String String)
    (jsonKeys : String → Except String (List String)) : Except String (List String) :=
  match fetchResult with
  | .error err => .error err
  | .ok payload =>
    match jsonKeys payload with
    | .error emsg => .error ("ValidateEnvVars failed parsing SecretString: " ++ emsg)
    | .ok keys => .ok keys

/-- Split a character list at every occurrence of `c`. -/
def splitOnChar (c : Char) : List Char → List (List Char)
  | [] => [[]]
  | x :: xs =>
    match splitOnChar c xs with
    | [] => [[]]
    | line :: rest => if x = c then [] :: line :: rest else (x :: line) :: rest

/-- Modelled from the spec: `dotenv.parse` is an external dependency whose
code is not in src/; the spec describes the file content as "parsed as
line-based KEY=VALUE text; result is the set of keys". Each line holding
an `=` contributes the text before its first `=` as a key. -/
def dotenvKeys (content : String) : List String :=
  (splitOnChar (Char.ofNat 10) content.data).filterMap fun line =>
    if line.contains '=' then some (String.mk (line.takeWhile fun ch => ch != '=')) else none

/-- The `knownEnvVars` option's runtime shapes, decided by the dispatcher
order of `_processKnownEnvVars`: a falsy value (absent), an array, a
string path, or an object probed as a secret-store descriptor. -/
inductive KnownEnvVarsArg
  | arr (elems : List JSValue)
  | filePath (path : String)
  | secretSource (object : List (String × JSValue))
deriving DecidableEq, Repr

/-- What source resolution does next: an immediately resolved name list,
or one network fetch against the validated secret-store descriptor. -/
inductive ResolveAction
  | now (names : List String)
  | fetchSecret (source : List (String × JSValue))
deriving DecidableEq, Repr

/-- The array branch of `_processKnownEnvVars` (src/index.js lines
158-170): every element must be a string or a `BadArgsError` is thrown;
each string is normalized by stripping a leading `process.env.`. -/
def processArrayElems : List JSValue → Except String (List String)
  | [] => .ok []
  | .str s :: rest =>
    match processArrayElems rest with
    | .error e => .error e
    | .ok names => .ok (stripProcessEnv s :: names)
  | .nonString :: _ =>
    .error "bad env vars source configuration (got array, but expected all elements to be string)"

/-- `_processKnownEnvVars` (src/index.js lines 153-195). `envSnapshot` is
`Object.keys(process.env)`; `fsys` is the file system (existence check
plus read, `fs.existsSync`/`fs.readFileSync`). A thrown `BadArgsError` is
an `.error` with its exact message. -/
def processKnownEnvVars (envSnapshot : List String) (fsys : String → Option String) :
    Option KnownEnvVarsArg → Except String ResolveAction
  | none => .ok (.now envSnapshot)
  | some (.arr elems) =>
    match processArrayElems elems with
    | .error e => .error e
    | .ok names => .ok (.now names)
  | some (.filePath path) =>
    match fsys path with
    | none => .error "bad env vars source configuration (got string, but no file exists at path)"
    | some content => .ok (.now (dotenvKeys content))
  | some (.secretSource object) =>
    match isAWSSecretsManagerSource object with
    | .error e => .error e
    | .ok true => .ok (.fetchSecret object)
    | .ok false => .error "bad env vars source configuration (refer to documentation)"

/-- The constructor options relevant to the timeout (src/index.js lines
264-274). -/
structure PluginOptions where
  knownEnvVarsTimeout : Option Nat
deriving DecidableEq, Repr

/-- The constructor's assignment `this.knownEnvVarsTimeout = 5000`
(src/index.js line 274): the options object is never consulted, although
`options.knownEnvVarsTimeout` is documented at lines 266-267. -/
def constructorKnownEnvVarsTimeout (_options : PluginOptions) : Nat := 5000

/-- Outcome of the `beforeCompile` gate (src/index.js lines 336-354):
compilation proceeds with the resolved names, or the build dies on the
timeout error, or on the rejection of the resolution promise. -/
inductive BeforeCompileOutcome
  | proceeded (knownEnvVars : List String)
  | timedOut (msg : String)
  | failed (msg : String)
deriving DecidableEq, Repr

/-- The `beforeCompile` race (src/index.js lines 336-354): `setTimeout`
fires after `this.knownEnvVarsTimeout` ms unless the resolution promise
settles first (`clearTimeout` in `.finally`); a fulfilled promise stores
the names and resolves the hook, a rejected one rethrows its error. -/
def beforeCompileWithTimeout (options : PluginOptions) (resolveAfterMs : Nat)
    (result : Except String (List String)) : BeforeCompileOutcome :=
  if constructorKnownEnvVarsTimeout options < resolveAfterMs then
    .timedOut "ValidateEnvVars timed out resolving known env vars"
  else
    match result with
    | .ok names => .proceeded names
    | .error e => .failed e

/-- Classification happens only when the gate proceeded: the walker runs
over the build's events against the stored `knownEnvVars`; when the gate
died no event is ever classified. -/
def classifyUnderGate (checks : PluginChecks) (outcome : BeforeCompileOutcome)
    (events : List ScanEvent) : Option (List (String × Module)) :=
  match outcome with
  | .proceeded known => some (scanAll known checks [] events)
  | _ => none

/-- A plugin instance configured to scan everything under the path root:
`includePaths: ["/"]`, no excludes, no ignores. -/
def rootScanChecks : PluginChecks := ⟨[], [pathStringCheck "/"], []⟩

/-- The recognition decision exactly as the claim words it, with rule 3
guarded by non-emptiness of includePaths ("includePaths is non-empty AND
no include predicate matches"). Written from the spec sentence, to be
compared against `isRecognisedEnvVar` from the source. -/
def claimedIsRecognisedEnvVar (knownEnvVars : List String) (checks : PluginChecks)
    (record : List (String × Module)) (envVar modulePath : String) : Bool :=
  if knownEnvVars.contains envVar then true
  else if mapHas record envVar then true
  else if !checks.includePaths.isEmpty
      && !(checks.includePaths.any fun check => check modulePath) then true
  else if checks.excludePaths.any fun check => check modulePath then true
  else if checks.ignoreEnvVars.any fun check => check envVar then true
  else false

theorem mapLookup_none_iff (record : List (String × Module)) (k : String) :
    mapLookup record k = none ↔ k ∉ record.map Prod.fst := by
  induction record with
  | nil => simp [mapLookup]
  | cons p rest ih =>
    obtain ⟨k', v⟩ := p
    by_cases h : k' = k
    · subst h
      simp [mapLookup]
    · simp [mapLookup, h, Ne.symm h, ih]

theorem mapLookup_set_self (record : List (String × Module)) (k : String) (v : Module) :
    mapLookup (mapSet record k v) k = some v := by
  induction record with
  | nil => simp [mapSet, mapLookup]
  | cons p rest ih =>
    obtain ⟨k', v'⟩ := p
    by_cases h : k' = k
    · simp [mapSet, mapLookup, h]
    · simp [mapSet, mapLookup, h, ih]

theorem mapLookup_set_ne (record : List (String × Module)) (k : String) (v : Module)
    (k' : String) (h : k' ≠ k) :
    mapLookup (mapSet record k v) k' = mapLookup record k' := by
  induction record with
  | nil => simp [mapSet, mapLookup, Ne.symm h]
  | cons p rest ih =>
    obtain ⟨ka, va⟩ := p
    by_cases hk : ka = k
    · subst hk
      simp [mapSet, mapLookup, Ne.symm h]
    · by_cases hk' : ka = k'
      · simp [mapSet, mapLookup, hk, hk', h]
      · simp [mapSet, mapLookup, hk, hk', h, ih]

theorem isRecognised_false_lookup (knownEnvVars : List String) (checks : PluginChecks)
    (record : List (String × Module)) (envVar modulePath : String)
    (h : isRecognisedEnvVar knownEnvVars checks record envVar modulePath = false) :
    mapLookup record envVar = none := by
  cases hl : mapLookup record envVar with
  | none => rfl
  | some m =>
    exfalso
    unfold isRecognisedEnvVar mapHas at h
    rw [hl] at h
    simp at h

theorem mapLookup_processEvent_preserved (knownEnvVars : List String) (checks : PluginChecks)
    (record : List (String × Module)) (e : ScanEvent) (name : String) (m : Module)
    (h : mapLookup record name = some m) :
    mapLookup (processEvent knownEnvVars checks record e) name = some m := by
  unfold processEvent
  cases hr : isRecognisedEnvVar knownEnvVars checks record e.name e.module.userRequest with
  | false =>
    have hnone := isRecognised_false_lookup knownEnvVars checks record e.name e.module.userRequest hr
    have hne : name ≠ e.name := by
      intro hEq
      rw [hEq, hnone] at h
      exact Option.noConfusion h
    rw [if_neg (by simp [hr])]
    rw [mapLookup_set_ne record e.name e.module name hne]
    exact h
  | true => simpa using h

theorem mapLookup_scanAll_preserved (knownEnvVars : List String) (checks : PluginChecks)
    (record : List (String × Module)) (events : List ScanEvent) (name : String) (m : Module)
    (h : mapLookup record name = some m) :
    mapLookup (scanAll knownEnvVars checks record events) name = some m := by
  induction events generalizing record with
  | nil => exact h
  | cons e es ih =>
    exact ih (processEvent knownEnvVars checks record e)
      (mapLookup_processEvent_preserved knownEnvVars checks record e name m h)

theorem mapSet_keys_absent (record : List (String × Module)) (k : String) (v : Module)
    (h : k ∉ record.map Prod.fst) :
    (mapSet record k v).map Prod.fst = record.map Prod.fst ++ [k] := by
  induction record with
  | nil => simp [mapSet]
  | cons p rest ih =>
    obtain ⟨k', v'⟩ := p
    rw [List.map_cons, List.mem_cons] at h
    push_neg at h
    have hne : k' ≠ k := fun hx => h.1 hx.symm
    simp [mapSet, hne, ih h.2]

theorem keys_nodup_processEvent (knownEnvVars : List String) (checks : PluginChecks)
    (record : List (String × Module)) (e : ScanEvent)
    (h : (record.map Prod.fst).Nodup) :
    ((processEvent knownEnvVars checks record e).map Prod.fst).Nodup := by
  unfold processEvent
  cases hr : isRecognisedEnvVar knownEnvVars checks record e.name e.module.userRequest with
  | false =>
    rw [if_neg (by simp [hr])]
    have hnone := isRecognised_false_lookup knownEnvVars checks record e.name e.module.userRequest hr
    have hnotmem : e.name ∉ record.map Prod.fst := (mapLookup_none_iff record e.name).mp hnone
    rw [mapSet_keys_absent record e.name e.module hnotmem]
    refine List.Nodup.append h (List.nodup_singleton _) ?_
    intro x hx hmem
    rw [List.mem_singleton] at hmem
    exact hnotmem (hmem ▸ hx)
  | true => simpa using h

theorem keys_nodup_scanAll (knownEnvVars : List String) (checks : PluginChecks)
    (record : List (String × Module)) (events : List ScanEvent)
    (h : (record.map Prod.fst).Nodup) :
    ((scanAll knownEnvVars checks record events).map Prod.fst).Nodup := by
  induction events generalizing record with
  | nil => exact h
  | cons e es ih =>
    exact ih (processEvent knownEnvVars checks record e)
      (keys_nodup_processEvent knownEnvVars checks record e h)

theorem string_append_cancel (p a b : String) (h : p ++ a = p ++ b) : a = b := by
  have hd : (p ++ a).data = (p ++ b).data := by rw [h]
  rw [String.data_append, String.data_append] at hd
  exact congrArg String.mk (List.append_cancel_left hd)

theorem diag_countP (record : List (String × Module)) (name : String)
    (h : (record.map Prod.fst).Nodup) :
    (afterCompile record).countP
        (fun d => d.message == "Unrecognised environment variable: " ++ name)
      = if (mapLookup record name).isSome then 1 else 0 := by
  induction record with
  | nil => simp [afterCompile, mapLookup]
  | cons p rest ih =>
    obtain ⟨k, v⟩ := p
    rw [List.map_cons] at h
    have hrest := ih (List.nodup_cons.mp h).2
    by_cases hk : k = name
    · subst hk
      have hnotmem : k ∉ rest.map Prod.fst := (List.nodup_cons.mp h).1
      have hnone : mapLookup rest k = none := (mapLookup_none_iff rest k).mpr hnotmem
      rw [hnone] at hrest
      simp [afterCompile, mapLookup, List.countP_cons, hrest]
      intro a b hmem heq
      have hak : a = k := string_append_cancel _ _ _ heq
      exact hnotmem (hak ▸ List.mem_map_of_mem Prod.fst hmem)
    · have hbeq : ("Unrecognised environment variable: " ++ k
          == "Unrecognised environment variable: " ++ name) = false := by
        refine beq_eq_false_iff_ne.mpr fun hx => hk ?_
        exact string_append_cancel _ _ _ hx
      simp [afterCompile, mapLookup, List.countP_cons, hk, hbeq] at hrest ⊢
      exact hrest

/-- C1 counterexample: at a configuration with empty includePaths (the
default), empty known set, no excludes and no ignores, the claim's rule
chain (rule 3 guarded by non-emptiness) classifies the access to `X` in
`/src/x` as unrecognized, while the code's `_isRecognisedEnvVar` returns
recognized: the claimed guard is not in the code. -/
theorem recognition_rule_order_counterexample :
    claimedIsRecognisedEnvVar [] emptyChecks [] "X" "/src/x" = false
      ∧ isRecognisedEnvVar [] emptyChecks [] "X" "/src/x" = true :=
  ⟨rfl, rfl⟩

/-- C1 (amended): for every name and module path, `_isRecognisedEnvVar`
evaluates its rules in exactly this order with the first matching rule
winning: (1) name in the known set, (2) name already in the unrecognized
record, (3) no include predicate matches the module path (with no
non-emptiness guard: when includePaths is empty this rule matches every
module), (4) some exclude predicate matches the module path, (5) some
ignore-name predicate matches the name; if no rule matches, the name is
unrecognized and `(name -> module)` is inserted into the record. -/
theorem recognition_rule_order_amended (knownEnvVars : List String) (checks : PluginChecks)
    (record : List (String × Module)) (e : ScanEvent) :
    isRecognisedEnvVar knownEnvVars checks record e.name e.module.userRequest
        = (firstMatchingRule knownEnvVars checks record e.name e.module.userRequest).isSome
      ∧ processEvent knownEnvVars checks record e
        = (if (firstMatchingRule knownEnvVars checks record e.name e.module.userRequest).isSome
            then record else mapSet record e.name e.module) := by
  have hdec : isRecognisedEnvVar knownEnvVars checks record e.name e.module.userRequest
      = (firstMatchingRule knownEnvVars checks record e.name e.module.userRequest).isSome := by
    unfold isRecognisedEnvVar firstMatchingRule
    by_cases h0 : e.name ∈ knownEnvVars <;>
    cases h1 : mapHas record e.name <;>
    cases h2 : checks.includePaths.any (fun check => check e.module.userRequest) <;>
    cases h3 : checks.excludePaths.any (fun check => check e.module.userRequest) <;>
    cases h4 : checks.ignoreEnvVars.any (fun check => check e.name) <;>
      simp [List.find?, ruleHolds, h0, h1, h2, h3, h4]
  refine ⟨hdec, ?_⟩
  unfold processEvent
  rw [hdec]

/-- C2 counterexample: with includePaths empty (the default), known set
`["A"]`, no excludes and no ignores, the claim says the access to the
absent name `X` is classified unrecognized and produces a diagnostic; the
code classifies it recognized and emits no diagnostic. -/
theorem emptyIncludePaths_counterexample :
    isRecognisedEnvVar ["A"] emptyChecks [] "X" "/src/x" = true
      ∧ afterCompile (scanAll ["A"] emptyChecks [] [⟨"X", ⟨0, "/src/x"⟩⟩]) = [] :=
  ⟨rfl, rfl⟩

/-- C2 (amended): when includePaths is empty (the default configuration),
rule 3 classifies every module as outside the scanned area: every access,
by any name in any module, is recognized, the unrecognized record never
grows, and no diagnostic is ever produced (nothing is implicitly
scanned). -/
theorem emptyIncludePaths_scans_nothing (knownEnvVars : List String) (checks : PluginChecks)
    (h : checks.includePaths = []) (record : List (String × Module))
    (events : List ScanEvent) :
    scanAll knownEnvVars checks record events = record
      ∧ ∀ envVar modulePath,
          isRecognisedEnvVar knownEnvVars checks record envVar modulePath = true := by
  have hrec : ∀ (rec : List (String × Module)) (envVar modulePath : String),
      isRecognisedEnvVar knownEnvVars checks rec envVar modulePath = true := by
    intro rec envVar modulePath
    unfold isRecognisedEnvVar
    cases h0 : knownEnvVars.contains envVar <;>
    cases h1 : mapHas rec envVar <;>
      simp [h, h0, h1]
  refine ⟨?_, hrec record⟩
  induction events generalizing record with
  | nil => rfl
  | cons e es ih =>
    show scanAll knownEnvVars checks (processEvent knownEnvVars checks record e) es = record
    have hskip : processEvent knownEnvVars checks record e = record := by
      unfold processEvent
      rw [hrec record e.name e.module.userRequest]
      rfl
    rw [hskip]
    exact ih record

/-- C2 witness: a concrete run of the amended statement — with the
default empty includePaths and known set `["A"]`, scanning an access to
`X` leaves the unrecognized record empty. -/
theorem emptyIncludePaths_scans_nothing_witness :
    scanAll ["A"] emptyChecks [] [⟨"X", ⟨0, "/src/x"⟩⟩] = [] :=
  (emptyIncludePaths_scans_nothing ["A"] emptyChecks rfl [] [⟨"X", ⟨0, "/src/x"⟩⟩]).1

/-- C3: for every unrecognized name, no matter how many times and from
how many modules it is accessed during one build, exactly one diagnostic
is emitted at end-of-scan (the count of diagnostics carrying the name's
message is 1 when the name was recorded, 0 otherwise), and the module
recorded for the name is the one from the first unrecognized access:
a name already present in the record is never overwritten, and the
insertion performed at the first unrecognized access survives the rest of
the scan. -/
theorem unrecognised_dedup_first_wins (knownEnvVars : List String) (checks : PluginChecks)
    (record : List (String × Module)) (e : ScanEvent) (es : List ScanEvent)
    (name : String) (m : Module)
    (hnodup : (record.map Prod.fst).Nodup) :
    (mapLookup record name = some m →
      mapLookup (scanAll knownEnvVars checks record es) name = some m)
      ∧ (isRecognisedEnvVar knownEnvVars checks record e.name e.module.userRequest = false →
        mapLookup (scanAll knownEnvVars checks record (e :: es)) e.name = some e.module)
      ∧ ((afterCompile (scanAll knownEnvVars checks record es)).countP
            (fun d => d.message == "Unrecognised environment variable: " ++ name)
          = if (mapLookup (scanAll knownEnvVars checks record es) name).isSome
            then 1 else 0) := by
  refine ⟨fun h => mapLookup_scanAll_preserved knownEnvVars checks record es name m h,
    fun hr => ?_, ?_⟩
  · show mapLookup
      (scanAll knownEnvVars checks (processEvent knownEnvVars checks record e) es) e.name
        = some e.module
    apply mapLookup_scanAll_preserved
    unfold processEvent
    rw [if_neg (by simp [hr])]
    exact mapLookup_set_self record e.name e.module
  · exact diag_countP (scanAll knownEnvVars checks record es) name
      (keys_nodup_scanAll knownEnvVars checks record es hnodup)

/-- C3 witness: a concrete run — the unknown name `X` accessed twice from
two modules inside the scanned area yields a record carrying the first
module and exactly one diagnostic. -/
theorem unrecognised_dedup_first_wins_witness :
    mapLookup
        (scanAll [] rootScanChecks []
          [⟨"X", ⟨0, "/src/x"⟩⟩, ⟨"X", ⟨1, "/src/y"⟩⟩]) "X" = some ⟨0, "/src/x"⟩
      ∧ (afterCompile
            (scanAll [] rootScanChecks [] [⟨"X", ⟨0, "/src/x"⟩⟩, ⟨"X", ⟨1, "/src/y"⟩⟩])).countP
          (fun d => d.message == "Unrecognised environment variable: " ++ "X")
        = if (mapLookup (scanAll [] rootScanChecks []
              [⟨"X", ⟨0, "/src/x"⟩⟩, ⟨"X", ⟨1, "/src/y"⟩⟩]) "X").isSome then 1 else 0 :=
  ⟨(unrecognised_dedup_first_wins [] rootScanChecks [] ⟨"X", ⟨0, "/src/x"⟩⟩
      [⟨"X", ⟨1, "/src/y"⟩⟩] "X" ⟨0, "/src/x"⟩ (by simp)).2.1 (by rfl),
    (unrecognised_dedup_first_wins [] rootScanChecks [] ⟨"X", ⟨0, "/src/x"⟩⟩
      [⟨"X", ⟨1, "/src/y"⟩⟩] "X" ⟨0, "/src/x"⟩ (by simp)).2.2⟩

/-- C4: the code contradicts the claim (and its own option documentation):
the constructor assigns `this.knownEnvVarsTimeout = 5000` unconditionally
and never reads the configured option, so configuring a 100 ms window
still yields a 5000 ms window, and a resolution settling after 2000 ms
proceeds instead of aborting with a timeout error. -/
theorem knownEnvVarsTimeout_option_ignored :
    constructorKnownEnvVarsTimeout ⟨some 100⟩ = 5000
      ∧ beforeCompileWithTimeout ⟨some 100⟩ 2000 (.ok ["HOME"]) = .proceeded ["HOME"]
      ∧ ∀ options : PluginOptions, constructorKnownEnvVarsTimeout options = 5000 :=
  ⟨rfl, rfl, fun _ => rfl⟩

/-- C5: a failed known-set resolution aborts the build at the
before-compile gate with that very error, and no scan event is ever
classified; within the secret-store resolver, a malformed payload yields
the error with the contextual `failed parsing SecretString` wrapping,
while a transport/authorization failure propagates unwrapped. -/
theorem resolution_failure_aborts (options : PluginOptions) (resolveAfterMs : Nat)
    (e emsg payload : String) (jsonKeys : String → Except String (List String))
    (checks : PluginChecks) (events : List ScanEvent)
    (hsettled : resolveAfterMs ≤ constructorKnownEnvVarsTimeout options)
    (hbadpayload : jsonKeys payload = .error emsg) :
    beforeCompileWithTimeout options resolveAfterMs (.error e) = .failed e
      ∧ classifyUnderGate checks (beforeCompileWithTimeout options resolveAfterMs (.error e))
          events = none
      ∧ getAWSSecretsManagerEnvVarNames (.error e) jsonKeys = .error e
      ∧ getAWSSecretsManagerEnvVarNames (.ok payload) jsonKeys
        = .error ("ValidateEnvVars failed parsing SecretString: " ++ emsg) := by
  have hgate : beforeCompileWithTimeout options resolveAfterMs (.error e) = .failed e := by
    unfold beforeCompileWithTimeout
    rw [if_neg (by omega)]
  refine ⟨hgate, ?_, rfl, ?_⟩
  · rw [hgate]
    rfl
  · simp [getAWSSecretsManagerEnvVarNames, hbadpayload]

/-- C5 witness: a concrete failed resolution — the gate dies with the
transport error, nothing is classified, and the two wrapping behaviours
evaluate as stated. -/
theorem resolution_failure_aborts_witness :
    beforeCompileWithTimeout ⟨none⟩ 10 (.error "AccessDeniedException") =
        .failed "AccessDeniedException"
      ∧ classifyUnderGate emptyChecks
          (beforeCompileWithTimeout ⟨none⟩ 10 (.error "AccessDeniedException"))
          [⟨"X", ⟨0, "/src/x"⟩⟩] = none
      ∧ getAWSSecretsManagerEnvVarNames (.error "AccessDeniedException")
          (fun _ => .error "Unexpected end of JSON input") = .error "AccessDeniedException"
      ∧ getAWSSecretsManagerEnvVarNames (.ok "not json")
          (fun _ => .error "Unexpected end of JSON input")
        = .error ("ValidateEnvVars failed parsing SecretString: "
            ++ "Unexpected end of JSON input") :=
  resolution_failure_aborts ⟨none⟩ 10 "AccessDeniedException" "Unexpected end of JSON input"
    "not json" (fun _ => .error "Unexpected end of JSON input") emptyChecks
    [⟨"X", ⟨0, "/src/x"⟩⟩] (by decide) rfl

/-- C6 counterexample: for the descriptor holding only `region` and
`secretId`, the thrown ConfigError names all four required fields — in
particular it mentions `'region'`, a field that is present, not missing —
so it does not name exactly the missing fields `accessKeyId` and
`secretAccessKey`. -/
theorem partial_secret_source_counterexample :
    processKnownEnvVars [] (fun _ => none)
        (some (.secretSource [("region", .str "eu-west-1"), ("secretId", .str "api-env-vars")]))
      = .error "bad AWS SecretsManager source configuration (requires properties: 'region', 'secretId', 'secretAccessKey', 'accessKeyId')"
      ∧ strMentions "bad AWS SecretsManager source configuration (requires properties: 'region', 'secretId', 'secretAccessKey', 'accessKeyId')"
          "'region'" = true :=
  ⟨rfl, by decide⟩

/-- C6 (amended): a secret-store descriptor with only some of the four
required fields fails with a ConfigError listing all four required field
names (not just the missing ones), and no network call occurs. -/
theorem partial_secret_source_lists_all_required (envSnapshot : List String)
    (fsys : String → Option String) (object : List (String × JSValue))
    (hnotall : hasAllProperties object awsRequiredProps = false)
    (hsomeProps : hasPartialProperties object awsRequiredProps = true) :
    processKnownEnvVars envSnapshot fsys (some (.secretSource object))
      = .error "bad AWS SecretsManager source configuration (requires properties: 'region', 'secretId', 'secretAccessKey', 'accessKeyId')"
      ∧ ∀ src, processKnownEnvVars envSnapshot fsys (some (.secretSource object))
          ≠ .ok (.fetchSecret src) := by
  have hq : "bad AWS SecretsManager source configuration (requires properties: "
      ++ toQuotedStringList awsRequiredProps ++ ")"
      = "bad AWS SecretsManager source configuration (requires properties: 'region', 'secretId', 'secretAccessKey', 'accessKeyId')" := rfl
  have hmsg : processKnownEnvVars envSnapshot fsys (some (.secretSource object))
      = .error "bad AWS SecretsManager source configuration (requires properties: 'region', 'secretId', 'secretAccessKey', 'accessKeyId')" := by
    simp [processKnownEnvVars, isAWSSecretsManagerSource, createExternalSourceCheck,
      hnotall, hsomeProps, hq]
  refine ⟨hmsg, fun src hx => ?_⟩
  rw [hmsg] at hx
  exact Except.noConfusion hx

/-- C6 witness: the concrete partial descriptor `{region, secretId}`
resolves to the all-four-fields ConfigError, not to a network fetch. -/
theorem partial_secret_source_lists_all_required_witness :
    processKnownEnvVars [] (fun _ => none)
        (some (.secretSource [("region", .str "eu-west-1"), ("secretId", .str "api-env-vars")]))
      = .error "bad AWS SecretsManager source configuration (requires properties: 'region', 'secretId', 'secretAccessKey', 'accessKeyId')" :=
  (partial_secret_source_lists_all_required [] (fun _ => none)
    [("region", .str "eu-west-1"), ("secretId", .str "api-env-vars")]
    (by decide) (by decide)).1

/-- C7: when a secret-store descriptor has all four required fields but
some field's value is not a non-empty string, resolution fails with a
ConfigError naming the first offending field in the required-field order
(region, secretId, secretAccessKey, accessKeyId), in the form
`missing value for property '<field>'`, and no network call occurs. -/
theorem secret_source_first_offending_field (envSnapshot : List String)
    (fsys : String → Option String) (object : List (String × JSValue)) (k : String)
    (hall : hasAllProperties object awsRequiredProps = true)
    (hfirst : awsRequiredProps.find? (fun f => !isNonEmptyStringProp object f) = some k) :
    processKnownEnvVars envSnapshot fsys (some (.secretSource object))
      = .error ("bad AWS SecretsManager source configuration (missing value for property '"
          ++ k ++ "')")
      ∧ ∀ src, processKnownEnvVars envSnapshot fsys (some (.secretSource object))
          ≠ .ok (.fetchSecret src) := by
  have hmsg : processKnownEnvVars envSnapshot fsys (some (.secretSource object))
      = .error ("bad AWS SecretsManager source configuration (missing value for property '"
          ++ k ++ "')") := by
    simp [processKnownEnvVars, isAWSSecretsManagerSource, createExternalSourceCheck,
      hall, hfirst]
  refine ⟨hmsg, fun src hx => ?_⟩
  rw [hmsg] at hx
  exact Except.noConfusion hx

/-- C7 witness: all four fields present but `region` empty — the error
names `region`, the first offending field, and no fetch happens. -/
theorem secret_source_first_offending_field_witness :
    processKnownEnvVars [] (fun _ => none) (some (.secretSource
        [("region", .str ""), ("secretId", .str "api-env-vars"),
          ("secretAccessKey", .str "sak"), ("accessKeyId", .str "aki")]))
      = .error "bad AWS SecretsManager source configuration (missing value for property 'region')" :=
  (secret_source_first_offending_field [] (fun _ => none)
    [("region", .str ""), ("secretId", .str "api-env-vars"),
      ("secretAccessKey", .str "sak"), ("accessKeyId", .str "aki")]
    "region" (by decide) (by decide)).1

/-- C8: for an explicit-list source, any non-string element makes
resolution fail with the ConfigError stating that all elements are
expected to be string; otherwise the resolved known set is, as a set, the
names with a leading `process.env.` qualifier stripped from each element
(membership is invariant under duplicates, which therefore collapse). -/
theorem explicit_list_source_normalised (envSnapshot : List String)
    (fsys : String → Option String) (elems : List JSValue) :
    (JSValue.nonString ∈ elems →
      processKnownEnvVars envSnapshot fsys (some (.arr elems))
        = .error "bad env vars source configuration (got array, but expected all elements to be string)")
      ∧ ∀ names, processKnownEnvVars envSnapshot fsys (some (.arr elems)) = .ok (.now names) →
          ∀ x, names.contains x = true
            ↔ ∃ s, JSValue.str s ∈ elems ∧ stripProcessEnv s = x := by
  have herr : ∀ l : List JSValue, JSValue.nonString ∈ l →
      processArrayElems l
        = .error "bad env vars source configuration (got array, but expected all elements to be string)" := by
    intro l hl
    induction l with
    | nil => cases hl
    | cons v rest ih =>
      cases v with
      | nonString => rfl
      | str s =>
        rw [List.mem_cons] at hl
        rcases hl with h | h
        · exact JSValue.noConfusion h
        · simp [processArrayElems, ih h]
  have hok : ∀ (l : List JSValue) (ns : List String), processArrayElems l = .ok ns →
      ∀ x, x ∈ ns ↔ ∃ s, JSValue.str s ∈ l ∧ stripProcessEnv s = x := by
    intro l
    induction l with
    | nil =>
      intro ns h x
      simp [processArrayElems] at h
      subst h
      simp
    | cons v rest ih =>
      intro ns h x
      cases v with
      | nonString => simp [processArrayElems] at h
      | str s =>
        cases hr : processArrayElems rest with
        | error err => simp [processArrayElems, hr] at h
        | ok tailNames =>
          simp [processArrayElems, hr] at h
          subst h
          constructor
          · intro hx
            rcases List.mem_cons.mp hx with hx | hx
            · exact ⟨s, List.mem_cons_self _ _, hx.symm⟩
            · obtain ⟨s', hs', hx'⟩ := (ih tailNames hr x).mp hx
              exact ⟨s', List.mem_cons_of_mem _ hs', hx'⟩
          · rintro ⟨s', hs', rfl⟩
            rcases List.mem_cons.mp hs' with h' | h'
            · injection h' with hss
              subst hss
              exact List.mem_cons_self _ _
            · exact List.mem_cons_of_mem _ ((ih tailNames hr _).mpr ⟨s', h', rfl⟩)
  refine ⟨fun hmem => ?_, fun names h x => ?_⟩
  · simp [processKnownEnvVars, herr elems hmem]
  · cases he : processArrayElems elems with
    | error err => simp [processKnownEnvVars, he] at h
    | ok ns =>
      simp [processKnownEnvVars, he] at h
      subst h
      simpa using hok elems ns he x

/-- C8 witness: a list holding a non-string fails with the exact message;
the list `[process.env.A, A]` resolves to names whose set of members is
the normalized singleton set containing `A` (the duplicate collapses). -/
theorem explicit_list_source_normalised_witness :
    processKnownEnvVars [] (fun _ => none) (some (.arr [.str "PROJECT_NAME", .nonString]))
      = .error "bad env vars source configuration (got array, but expected all elements to be string)"
      ∧ ((["A", "A"].contains "A" = true)
        ↔ ∃ s, JSValue.str s ∈ [JSValue.str "process.env.A", JSValue.str "A"]
            ∧ stripProcessEnv s = "A") :=
  ⟨(explicit_list_source_normalised [] (fun _ => none) [.str "PROJECT_NAME", .nonString]).1
      (by simp),
    (explicit_list_source_normalised [] (fun _ => none)
      [.str "process.env.A", .str "A"]).2 ["A", "A"] rfl "A"⟩

/-- C9: for a file-path source, a missing file fails with the ConfigError
about no file existing at the path; a file whose content is `A=1\nB=2`
resolves the known set to `A` and `B`, and scanning accesses to `A`, `B`
and `C` (twice) inside the scanned scope yields exactly one diagnostic,
for `C`, attributed to its first module. -/
theorem file_source_keys (envSnapshot : List String) (fsys : String → Option String)
    (path : String) (hmiss : fsys path = none) :
    processKnownEnvVars envSnapshot fsys (some (.filePath path))
      = .error "bad env vars source configuration (got string, but no file exists at path)"
      ∧ processKnownEnvVars envSnapshot
          (fun p => if p = "/.env" then some "A=1\nB=2" else none) (some (.filePath "/.env"))
        = .ok (.now ["A", "B"])
      ∧ afterCompile (scanAll ["A", "B"] rootScanChecks []
          [⟨"A", ⟨0, "/src/x"⟩⟩, ⟨"B", ⟨0, "/src/x"⟩⟩,
            ⟨"C", ⟨0, "/src/x"⟩⟩, ⟨"C", ⟨1, "/src/y"⟩⟩])
        = [⟨"Unrecognised environment variable: C", ⟨0, "/src/x"⟩⟩] := by
  refine ⟨?_, rfl, rfl⟩
  simp [processKnownEnvVars, hmiss]

/-- C9 witness: a file system with no file at the requested path yields
the exact missing-file ConfigError. -/
theorem file_source_keys_witness :
    processKnownEnvVars [] (fun _ => none) (some (.filePath "/missing/.env"))
      = .error "bad env vars source configuration (got string, but no file exists at path)" :=
  (file_source_keys [] (fun _ => none) "/missing/.env" rfl).1

/-- C10: the compiled string predicate for an ignoreEnvVars entry strips
the leading `process.env.` qualifier from the candidate name being
tested, not from the configured literal; hence a configured entry that
itself begins with `process.env.` matches no candidate name the walker
can produce (every such candidate is a bare identifier, which never
begins with `process.env.`). -/
theorem ignore_string_entry_qualifier_mismatch (s input : String)
    (hs : strHasPre "process.env." s = true)
    (hinput : strHasPre "process.env." input = false) :
    ignoreEnvVarsStringCheck s input = false := by
  have hne : s ≠ input := by
    intro h
    rw [h, hinput] at hs
    exact Bool.noConfusion hs
  unfold ignoreEnvVarsStringCheck stripProcessEnv
  simp [hinput, hne]

/-- C10 witness: the configured entry `process.env.FOO` does not match
the candidate name `FOO`. -/
theorem ignore_string_entry_qualifier_mismatch_witness :
    ignoreEnvVarsStringCheck "process.env.FOO" "FOO" = false :=
  ignore_string_entry_qualifier_mismatch "process.env.FOO" "FOO" (by decide) (by decide)

end ValidateEnvVars
